import Mathlib

/-!
Verification of the package-operator bootstrap and package-controller core.

This file gives a shallow embedding, in Lean 4, of the Go functions in
`cmd/package-operator-manager/bootstrap.go` and
`internal/controllers/packages/package_controller.go` (plus the separate
`bootstrap` package holding `Bootstrapper.needsBootstrap`), and proves or
refutes the frozen specification claims about them.

Modelling conventions:
- Go machine integers (`int64` revision numbers) are modelled as `Int`;
  none of the verified properties is about overflow behaviour.
- Fallible client calls are modelled with `Except Err` / `Option`; error
  values unexpected by a call site are injected through explicit oracle
  arguments, since the cluster store is an external collaborator.
- A Go nil-pointer dereference (a runtime panic) is modelled by `Option`:
  a function that can panic returns `none` on the panicking input.
-/

namespace PackageOperator

/-! ## Errors of the cluster state adapter (k8s.io/apimachinery api/errors) -/

/-- Typed errors returned by the cluster client, as distinguished by the Go
code via `errors.IsNotFound` / `errors.IsAlreadyExists`.  `wrapped` models
a Go error produced by wrapping an inner error with a context
message; `wrappedNil` models a message produced by wrapping a nil
error (as the post-delete existence checks in `forcedCleanup` do when the
object is unexpectedly still present). -/
inductive Err
  | notFound
  | alreadyExists
  | transport (code : Nat)
  | wrapped (msg : String) (inner : Err)
  | wrappedNil (msg : String)
deriving DecidableEq

/-! ## Data model: ClusterObjectSet (api types used by `bootstrap.go`) -/

/-- Status phases of an ObjectSet; `bootstrap.go` only compares against
`Pending` (`corev1alpha1.ObjectSetStatusPhasePending`). -/
inductive ObjectSetStatusPhase
  | Pending
  | Available
  | NotReady
  | Archived
deriving DecidableEq

/-- `corev1alpha1.PreviousRevisionReference`: a by-name pointer to an
ancestor ClusterObjectSet. -/
structure PreviousRevisionReference where
  name : String
deriving DecidableEq

/-- The part of `ClusterObjectSetSpec` read by `bootstrap.go`. -/
structure ClusterObjectSetSpec where
  previous : List PreviousRevisionReference
deriving DecidableEq

/-- The part of `ClusterObjectSetStatus` read or written by `bootstrap.go`. -/
structure ClusterObjectSetStatus where
  revision : Int
  phase : ObjectSetStatusPhase
deriving DecidableEq

/-- A ClusterObjectSet as used by `fixMissingRevisionNumbers`. -/
structure ClusterObjectSet where
  name : String
  spec : ClusterObjectSetSpec
  status : ClusterObjectSetStatus
deriving DecidableEq

/-- A status-subresource patch issued by
`b.client.Status().Patch(ctx, cos, client.Merge)`: it targets the named
object only and carries the revision just assigned to it. -/
structure StatusPatch where
  name : String
  revision : Int
deriving DecidableEq

/-! ## Revision graph repair (`fixMissingRevisionNumbers`, `highestRevisionNumber`) -/

/-- Lookup in the name-indexed map `cosByName` built by
`fixMissingRevisionNumbers`.  The Go map is populated by a front-to-back
loop, so on duplicate names the later insertion overwrites the earlier
one; the recursion below looks at the tail (later entries) first to match
that.  The map holds pointers into the listed slice, so lookups observe
in-place mutations of the slice; we model that by always looking up in
the current state of the list. -/
def cosLookup : List ClusterObjectSet → String → Option ClusterObjectSet
  | [], _ => none
  | c :: rest, n =>
    match cosLookup rest n with
    | some r => some r
    | none => if c.name = n then some c else none

/-- The "assume it is stuck" predicate of `fixMissingRevisionNumbers`:
`cos.Status.Revision == 0 && len(cos.Spec.Previous) > 0 &&
cos.Status.Phase == Pending`. -/
def looksStuck (cos : ClusterObjectSet) : Bool :=
  decide (cos.status.revision = 0) && decide (0 < cos.spec.previous.length)
    && decide (cos.status.phase = ObjectSetStatusPhase.Pending)

/-- The loop body of `highestRevisionNumber`.  In Go,
`cosByName[prev.Name]` on a missing key yields a nil pointer and the
subsequent `.Status.Revision` dereference panics; that panic is the
`none` result here. -/
def highestRevisionLoop (cosByName : String → Option ClusterObjectSet) :
    List PreviousRevisionReference → Int → Option Int
  | [], maxRevision => some maxRevision
  | prev :: rest, maxRevision =>
    match cosByName prev.name with
    | none => none
    | some c =>
      highestRevisionLoop cosByName rest
        (if maxRevision < c.status.revision then c.status.revision else maxRevision)

/-- `highestRevisionNumber(cosByName, prevs...)`: the running maximum
starts at `0` (`var maxRevision int64`). -/
def highestRevisionNumber (cosByName : String → Option ClusterObjectSet)
    (prevs : List PreviousRevisionReference) : Option Int :=
  highestRevisionLoop cosByName prevs 0

/-- Write a revision into the status of an object, leaving every other
field alone (this is the single in-place mutation
`cos.Status.Revision = ... + 1` performed by the repair). -/
def setRevision (cos : ClusterObjectSet) (r : Int) : ClusterObjectSet :=
  { cos with status := { cos.status with revision := r } }

/-- The indexed loop of `fixMissingRevisionNumbers`, with the slice split
into the already-visited prefix `done` (possibly mutated in place) and
the unvisited suffix `todo`.  The map lookup sees the whole current
slice `done ++ todo` because the map aliases the slice entries.  The
status patches issued so far are accumulated in `patches`; `none` is the
nil-pointer panic propagated out of `highestRevisionNumber`. -/
def fixLoop : List ClusterObjectSet → List ClusterObjectSet → List StatusPatch →
    Option (List ClusterObjectSet × List StatusPatch)
  | done, [], patches => some (done, patches)
  | done, cos :: rest, patches =>
    if looksStuck cos then
      match highestRevisionNumber (cosLookup (done ++ cos :: rest)) cos.spec.previous with
      | none => none
      | some m =>
        fixLoop (done ++ [setRevision cos (m + 1)]) rest
          (patches ++ [{ name := cos.name, revision := m + 1 }])
    else fixLoop (done ++ [cos]) rest patches

/-- `fixMissingRevisionNumbers` over an already-listed snapshot of the
labelled ClusterObjectSets (the initial `client.List` and the per-object
status patches are assumed to succeed; the claims under verification are
not about injected patch failures).  The result is the final state of
the listed objects together with the status patches issued, or `none`
when the run panics on a nil map entry. -/
def fixMissingRevisionNumbers (items : List ClusterObjectSet) :
    Option (List ClusterObjectSet × List StatusPatch) :=
  fixLoop [] items []

/-! ### Specification-side functions for the repair

These restate, in the words of the claim, what the repaired snapshot and
patch list ought to look like; the theorems below compare the embedding
of the source against them. -/

/-- The revision contributed by one previous-reference, read off a fixed
lookup function (`0` as a default is only ever used underneath a
hypothesis that rules it out). -/
def prevRevision (f : String → Option ClusterObjectSet)
    (p : PreviousRevisionReference) : Int :=
  match f p.name with
  | some c => c.status.revision
  | none => 0

/-- Maximum revision among the previous references of `c`, as read in the
original snapshot `items` (floored at `0`, like the Go running maximum). -/
def prevsMax (items : List ClusterObjectSet) (c : ClusterObjectSet) : Int :=
  (c.spec.previous.map (prevRevision (cosLookup items))).foldl max 0

/-- What the claim says the repair does to a single object: a stuck object
gets `max(previous revisions) + 1`, every other object is untouched. -/
def repairOne (items : List ClusterObjectSet) (c : ClusterObjectSet) : ClusterObjectSet :=
  if looksStuck c then setRevision c (prevsMax items c + 1) else c

/-- Expected final snapshot: the pointwise image of `repairOne`. -/
def expectedOut (items l : List ClusterObjectSet) : List ClusterObjectSet :=
  l.map (repairOne items)

/-- Expected patch list: exactly one status patch per stuck object, in
snapshot order, carrying the newly assigned revision. -/
def expectedPatches (items l : List ClusterObjectSet) : List StatusPatch :=
  (l.filter looksStuck).map (fun c => { name := c.name, revision := prevsMax items c + 1 })

/-- Hypothesis under which claim C1 is stated: every previous reference of
every stuck object resolves in the snapshot, and resolves to an object
that is itself not stuck (so its revision is never rewritten during the
pass and the snapshot revision is the one the repair reads). -/
def ResolveNonStuck (items : List ClusterObjectSet) : Prop :=
  ∀ c ∈ items, looksStuck c = true →
    ∀ p ∈ c.spec.previous,
      Option.map looksStuck (cosLookup items p.name) = some false

instance (items : List ClusterObjectSet) : Decidable (ResolveNonStuck items) := by
  unfold ResolveNonStuck; infer_instance

/-! Sanity examples (spec section 8 scenario: `{A: rev=1}`,
`{B: rev=0, previous=[A], phase=Pending}` gives `B.revision = 2`). -/

def exA : ClusterObjectSet :=
  { name := "pko-a", spec := { previous := [] },
    status := { revision := 1, phase := ObjectSetStatusPhase.Available } }

def exB : ClusterObjectSet :=
  { name := "pko-b", spec := { previous := [{ name := "pko-a" }] },
    status := { revision := 0, phase := ObjectSetStatusPhase.Pending } }

example : looksStuck exA = false := by decide

example : looksStuck exB = true := by decide

example :
    fixMissingRevisionNumbers [exA, exB] =
      some ([exA, setRevision exB 2], [{ name := "pko-b", revision := 2 }]) := by
  decide

/-! ### Lemmas about the repair -/

/-- A lookup misses exactly when no object of the list carries the name. -/
theorem cosLookup_eq_none_iff (l : List ClusterObjectSet) (n : String) :
    cosLookup l n = none ↔ ∀ c ∈ l, c.name ≠ n := by
  induction l with
  | nil => simp [cosLookup]
  | cons c rest ih =>
    cases h : cosLookup rest n with
    | some r =>
      have : ¬ ∀ x ∈ rest, x.name ≠ n := by
        intro hall
        rw [ih.mpr hall] at h
        exact Option.noConfusion h
      simp only [cosLookup, h]
      constructor
      · intro hx; exact absurd hx (Option.noConfusion)
      · intro hall
        exact absurd (fun x hx => hall x (List.mem_cons_of_mem c hx)) this
    | none =>
      simp only [cosLookup, h]
      constructor
      · intro hx
        by_cases hc : c.name = n
        · rw [if_pos hc] at hx; exact absurd hx (Option.noConfusion)
        · intro x hx'
          rcases List.mem_cons.mp hx' with rfl | hmem
          · exact hc
          · exact ih.mp h x hmem
      · intro hall
        rw [if_neg (hall c (List.mem_cons_self _ _))]

/-- The relation between an object of the original snapshot and the object
now sitting at its index: the name never changes, and a non-stuck object
is never changed at all. -/
def repairRel (a b : ClusterObjectSet) : Prop :=
  b.name = a.name ∧ (looksStuck a = false → b = a)

theorem repairRel_refl (a : ClusterObjectSet) : repairRel a a :=
  ⟨rfl, fun _ => rfl⟩

/-- If the current slice is pointwise `repairRel`-related to the snapshot
and the snapshot lookup of `n` can only produce non-stuck objects, then
the lookup of `n` in the current slice agrees with the snapshot lookup. -/
theorem cosLookup_eq_of_forall₂ {items cur : List ClusterObjectSet} {n : String}
    (hrel : List.Forall₂ repairRel items cur)
    (hn : ∀ a, cosLookup items n = some a → looksStuck a = false) :
    cosLookup cur n = cosLookup items n := by
  induction hrel with
  | nil => rfl
  | cons hab htail ih =>
    rename_i a b items' cur'
    cases h : cosLookup items' n with
    | some r =>
      have hr : looksStuck r = false := by
        apply hn
        simp only [cosLookup, h]
      have ih' : cosLookup cur' n = cosLookup items' n := by
        apply ih
        intro a' ha'
        rw [h] at ha'
        cases ha'
        exact hr
      simp only [cosLookup, ih', h]
    | none =>
      have ih' : cosLookup cur' n = cosLookup items' n := by
        apply ih
        intro a' ha'
        rw [h] at ha'
        exact absurd ha' (Option.noConfusion)
      simp only [cosLookup, ih', h]
      by_cases hname : a.name = n
      · have ha : looksStuck a = false := by
          apply hn
          simp only [cosLookup, h, if_pos hname]
        rw [hab.2 ha, if_pos hname]
      · rw [if_neg hname, if_neg (hab.1 ▸ hname)]

/-- The running-maximum loop only reads the lookup function at the names of
the given previous references. -/
theorem highestRevisionLoop_congr (f g : String → Option ClusterObjectSet)
    (prevs : List PreviousRevisionReference)
    (h : ∀ p ∈ prevs, f p.name = g p.name) :
    ∀ acc, highestRevisionLoop f prevs acc = highestRevisionLoop g prevs acc := by
  induction prevs with
  | nil => intro acc; rfl
  | cons p rest ih =>
    intro acc
    have hp : f p.name = g p.name := h p (List.mem_cons_self _ _)
    have hrest : ∀ q ∈ rest, f q.name = g q.name :=
      fun q hq => h q (List.mem_cons_of_mem p hq)
    simp only [highestRevisionLoop, hp]
    cases g p.name with
    | none => rfl
    | some c => exact ih hrest _

theorem if_lt_eq_max (a b : Int) : (if a < b then b else a) = max a b := by
  by_cases h : a < b
  · rw [if_pos h, max_eq_right h.le]
  · rw [if_neg h, max_eq_left (le_of_not_lt h)]

/-- When every previous reference resolves, the running-maximum loop is the
fold of `max` over the referenced revisions. -/
theorem highestRevisionLoop_eq_foldl (f : String → Option ClusterObjectSet)
    (prevs : List PreviousRevisionReference)
    (h : ∀ p ∈ prevs, (f p.name).isSome) :
    ∀ acc, highestRevisionLoop f prevs acc =
      some ((prevs.map (prevRevision f)).foldl max acc) := by
  induction prevs with
  | nil => intro acc; rfl
  | cons p rest ih =>
    intro acc
    cases hp : f p.name with
    | none =>
      have := h p (List.mem_cons_self _ _)
      rw [hp] at this
      exact absurd this (by simp)
    | some c =>
      have hrest : ∀ q ∈ rest, (f q.name).isSome :=
        fun q hq => h q (List.mem_cons_of_mem p hq)
      have hrev : prevRevision f p = c.status.revision := by
        simp [prevRevision, hp]
      simp only [highestRevisionLoop, hp, List.map_cons, List.foldl_cons,
        if_lt_eq_max, hrev]
      exact ih hrest _

/-- When some previous reference does not resolve, the loop panics. -/
theorem highestRevisionLoop_none (f : String → Option ClusterObjectSet)
    (prevs : List PreviousRevisionReference) (p : PreviousRevisionReference)
    (hp : p ∈ prevs) (hnone : f p.name = none) :
    ∀ acc, highestRevisionLoop f prevs acc = none := by
  induction prevs with
  | nil => exact absurd hp (List.not_mem_nil _)
  | cons q rest ih =>
    intro acc
    rcases List.mem_cons.mp hp with rfl | hmem
    · simp only [highestRevisionLoop, hnone]
    · cases hq : f q.name with
      | none => simp only [highestRevisionLoop, hq]
      | some c =>
        simp only [highestRevisionLoop, hq]
        exact ih hmem _

/-- Main invariant of the repair pass: with every stuck object's ancestry
resolving to non-stuck objects, the loop rewrites exactly the stuck
objects, assigning each the snapshot maximum of its referenced revisions
plus one, and issues exactly one status patch per stuck object. -/
theorem fixLoop_spec (items : List ClusterObjectSet) (hres : ResolveNonStuck items) :
    ∀ (todo front done : List ClusterObjectSet) (patches : List StatusPatch),
      items = front ++ todo →
      List.Forall₂ repairRel front done →
      fixLoop done todo patches =
        some (done ++ expectedOut items todo, patches ++ expectedPatches items todo) := by
  intro todo
  induction todo with
  | nil =>
    intro front done patches _ _
    simp [fixLoop, expectedOut, expectedPatches]
  | cons cos rest ih =>
    intro front done patches hitems hrel
    have hcur : List.Forall₂ repairRel items (done ++ cos :: rest) := by
      rw [hitems]
      exact List.rel_append hrel (List.forall₂_same.mpr fun x _ => repairRel_refl x)
    by_cases hstuck : looksStuck cos = true
    · have hmem : cos ∈ items := by
        rw [hitems]
        exact List.mem_append_right _ (List.mem_cons_self _ _)
      have hprev := hres cos hmem hstuck
      have hlook : ∀ p ∈ cos.spec.previous,
          cosLookup (done ++ cos :: rest) p.name = cosLookup items p.name := by
        intro p hp
        apply cosLookup_eq_of_forall₂ hcur
        intro a ha
        have hpa := hprev p hp
        rw [ha] at hpa
        simpa using hpa
      have hsome : ∀ p ∈ cos.spec.previous, (cosLookup items p.name).isSome := by
        intro p hp
        have hpa := hprev p hp
        cases h : cosLookup items p.name with
        | none => rw [h] at hpa; simp at hpa
        | some a => simp
      have hrev : highestRevisionNumber (cosLookup (done ++ cos :: rest)) cos.spec.previous
          = some (prevsMax items cos) := by
        unfold highestRevisionNumber
        rw [highestRevisionLoop_congr _ _ _ hlook 0,
          highestRevisionLoop_eq_foldl _ _ hsome 0]
        rfl
      have hstep : fixLoop done (cos :: rest) patches
          = fixLoop (done ++ [setRevision cos (prevsMax items cos + 1)]) rest
              (patches ++ [{ name := cos.name, revision := prevsMax items cos + 1 }]) := by
        simp only [fixLoop, if_pos hstuck, hrev]
      have hrel' : List.Forall₂ repairRel (front ++ [cos])
          (done ++ [setRevision cos (prevsMax items cos + 1)]) := by
        refine List.rel_append hrel (List.Forall₂.cons ?_ List.Forall₂.nil)
        refine ⟨rfl, fun hf => ?_⟩
        rw [hf] at hstuck
        exact absurd hstuck (by simp)
      have hitems' : items = (front ++ [cos]) ++ rest := by
        rw [hitems]; simp
      have htail := ih (front ++ [cos])
        (done ++ [setRevision cos (prevsMax items cos + 1)])
        (patches ++ [{ name := cos.name, revision := prevsMax items cos + 1 }])
        hitems' hrel'
      rw [hstep, htail]
      simp [expectedOut, expectedPatches, repairOne, hstuck, List.filter_cons]
    · have hstep : fixLoop done (cos :: rest) patches
          = fixLoop (done ++ [cos]) rest patches := by
        simp only [fixLoop, if_neg hstuck]
      have hrel' : List.Forall₂ repairRel (front ++ [cos]) (done ++ [cos]) :=
        List.rel_append hrel (List.Forall₂.cons (repairRel_refl cos) List.Forall₂.nil)
      have hitems' : items = (front ++ [cos]) ++ rest := by
        rw [hitems]; simp
      have htail := ih (front ++ [cos]) (done ++ [cos]) patches hitems' hrel'
      rw [hstep, htail]
      have hstuckF : looksStuck cos = false := Bool.eq_false_iff.mpr hstuck
      simp [expectedOut, expectedPatches, repairOne, hstuckF, List.filter_cons]

/-- C1: for every ClusterObjectSet of the listed snapshot with
`revision == 0`, a non-empty previous-reference list and status phase
`Pending`, `fixMissingRevisionNumbers` assigns it the maximum revision
among its previous references plus one and issues a status patch for
exactly that object; every object not matching all three conditions is
left unchanged.  The snapshot is assumed to resolve every stuck object's
previous references to objects that are not themselves stuck (otherwise
the lookup panics — see the C2 theorems — or reads an ancestor revision
already rewritten during the same pass). -/
theorem c1_repair_assigns_snapshot_max_plus_one
    (items : List ClusterObjectSet) (hres : ResolveNonStuck items) :
    fixMissingRevisionNumbers items =
      some (expectedOut items items, expectedPatches items items) := by
  have h := fixLoop_spec items hres items [] [] [] rfl List.Forall₂.nil
  simpa [fixMissingRevisionNumbers] using h

/-- C1 witness: the hypothesis and conclusion of the C1 theorem evaluated
at the two-object scenario of spec section 8. -/
theorem c1_repair_witness :
    ResolveNonStuck [exA, exB] ∧
      fixMissingRevisionNumbers [exA, exB] =
        some (expectedOut [exA, exB] [exA, exB], expectedPatches [exA, exB] [exA, exB]) :=
  ⟨by decide, c1_repair_assigns_snapshot_max_plus_one [exA, exB] (by decide)⟩

/-! ### Behaviour of the repair on a missing ancestor (claim C2) -/

/-- If a stuck object of the unvisited suffix references a name carried by
no object of the current slice, the repair pass panics (the loop reaches
that object — or dies earlier — and the nil map entry is dereferenced). -/
theorem fixLoop_none_of_absent (c : ClusterObjectSet) (p : PreviousRevisionReference)
    (hstuck : looksStuck c = true) (hp : p ∈ c.spec.previous) :
    ∀ (todo done : List ClusterObjectSet) (patches : List StatusPatch),
      c ∈ todo → (∀ x ∈ done ++ todo, x.name ≠ p.name) →
      fixLoop done todo patches = none := by
  intro todo
  induction todo with
  | nil =>
    intro done patches hc _
    exact absurd hc (List.not_mem_nil _)
  | cons head rest ih =>
    intro done patches hc habs
    have habsent : cosLookup (done ++ head :: rest) p.name = none :=
      (cosLookup_eq_none_iff _ _).mpr habs
    by_cases hhs : looksStuck head = true
    · cases hrev : highestRevisionNumber (cosLookup (done ++ head :: rest))
          head.spec.previous with
      | none => simp only [fixLoop, if_pos hhs, hrev]
      | some m =>
        have hcr : c ∈ rest := by
          rcases List.mem_cons.mp hc with rfl | hmem
          · exfalso
            have := highestRevisionLoop_none _ _ p hp habsent 0
            rw [highestRevisionNumber] at hrev
            rw [this] at hrev
            exact Option.noConfusion hrev
          · exact hmem
        have hstep : fixLoop done (head :: rest) patches
            = fixLoop (done ++ [setRevision head (m + 1)]) rest
                (patches ++ [{ name := head.name, revision := m + 1 }]) := by
          simp only [fixLoop, if_pos hhs, hrev]
        rw [hstep]
        apply ih (done ++ [setRevision head (m + 1)]) _ hcr
        intro x hx
        rcases List.mem_append.mp hx with hx' | hx'
        · rcases List.mem_append.mp hx' with hx'' | hx''
          · exact habs x (List.mem_append_left _ hx'')
          · rcases List.mem_singleton.mp hx'' with rfl
            exact habs head (List.mem_append_right _ (List.mem_cons_self _ _))
        · exact habs x (List.mem_append_right _ (List.mem_cons_of_mem _ hx'))
    · have hcr : c ∈ rest := by
        rcases List.mem_cons.mp hc with rfl | hmem
        · exact absurd hstuck hhs
        · exact hmem
      have hstep : fixLoop done (head :: rest) patches
          = fixLoop (done ++ [head]) rest patches := by
        simp only [fixLoop, if_neg hhs]
      rw [hstep]
      apply ih (done ++ [head]) patches hcr
      intro x hx
      rcases List.mem_append.mp hx with hx' | hx'
      · rcases List.mem_append.mp hx' with hx'' | hx''
        · exact habs x (List.mem_append_left _ hx'')
        · rcases List.mem_singleton.mp hx'' with rfl
          exact habs x (List.mem_append_right _ (List.mem_cons_self _ _))
      · exact habs x (List.mem_append_right _ (List.mem_cons_of_mem _ hx'))

/-- C2 counterexample: a single stuck ClusterObjectSet whose previous
reference names an object absent from the listed snapshot.  The claim
says the repair treats the missing ancestor as revision 0 and completes;
the code instead dereferences the nil map entry
(`cosByName[prev.Name].Status.Revision`) and the run dies — modelled as
the `none` result — so nothing is assigned and no patch is issued. -/
theorem c2_missing_ancestor_counterexample :
    fixMissingRevisionNumbers
      [{ name := "pko-phase-b", spec := { previous := [{ name := "pko-phase-a" }] },
         status := { revision := 0, phase := ObjectSetStatusPhase.Pending } }] = none := by
  decide

/-- C2 amended: whenever some stuck ClusterObjectSet of the snapshot has a
previous reference whose name is carried by no object of the snapshot,
`fixMissingRevisionNumbers` panics on the nil map entry (result `none`)
instead of treating that ancestor's contribution as revision 0. -/
theorem c2_missing_ancestor_panics (items : List ClusterObjectSet)
    (c : ClusterObjectSet) (hc : c ∈ items) (hstuck : looksStuck c = true)
    (p : PreviousRevisionReference) (hp : p ∈ c.spec.previous)
    (habs : ∀ x ∈ items, x.name ≠ p.name) :
    fixMissingRevisionNumbers items = none :=
  fixLoop_none_of_absent c p hstuck hp items [] [] hc (by simpa using habs)

/-- A stuck ClusterObjectSet referencing a name that is absent from the
witness snapshot below. -/
def exC : ClusterObjectSet :=
  { name := "pko-phase-c", spec := { previous := [{ name := "pko-ghost" }] },
    status := { revision := 0, phase := ObjectSetStatusPhase.Pending } }

/-- C2 witness: the amended theorem applied to a concrete two-object
snapshot whose second, stuck object references a name that is absent. -/
theorem c2_missing_ancestor_witness :
    fixMissingRevisionNumbers [exA, exC] = none :=
  c2_missing_ancestor_panics [exA, exC] exC (by decide) (by decide)
    { name := "pko-ghost" } (by decide) (by decide)

/-! ## Deployment probes (`needsForcedCleanup`, `Bootstrapper.needsBootstrap`)

Both probes `Get` the Deployment `package-operator-manager` in the PKO
namespace and inspect its condition list.  The `Get` outcome is an
oracle argument: `Except.ok d` is a successful fetch, `Except.error e`
carries the client error, which the Go code classifies with
`errors.IsNotFound`. -/

/-- `appsv1.DeploymentConditionType`; the probes only compare against
`DeploymentAvailable`. -/
inductive DeploymentConditionType
  | Available
  | Progressing
  | ReplicaFailure
deriving DecidableEq

/-- `corev1.ConditionStatus`. -/
inductive ConditionStatus
  | ConditionTrue
  | ConditionFalse
  | ConditionUnknown
deriving DecidableEq

/-- `appsv1.DeploymentCondition`, restricted to the fields the probes read. -/
structure DeploymentCondition where
  condType : DeploymentConditionType
  status : ConditionStatus
deriving DecidableEq

/-- `appsv1.DeploymentStatus`, restricted to the condition list. -/
structure DeploymentStatus where
  conditions : List DeploymentCondition
deriving DecidableEq

/-- `appsv1.Deployment`, restricted to its status. -/
structure Deployment where
  status : DeploymentStatus
deriving DecidableEq

/-- The condition scan shared, in shape, by both probes: Go's
`for _, cond := range conds` returning at the first condition with the
given type and status, else falling through. -/
def hasDeploymentCondition (conds : List DeploymentCondition)
    (t : DeploymentConditionType) (s : ConditionStatus) : Bool :=
  match conds with
  | [] => false
  | c :: rest =>
    if c.condType = t ∧ c.status = s then true
    else hasDeploymentCondition rest t s

/-- `errors.IsNotFound` on a raw client error. -/
def isNotFoundErr (e : Err) : Bool :=
  match e with
  | Err.notFound => true
  | _ => false

/-- `(*bootstrapper).needsForcedCleanup` (bootstrap.go): NotFound from the
Deployment `Get` yields `(true, nil)`; any other `Get` error is returned;
otherwise the result is whether some condition is an explicit
`DeploymentAvailable`/`ConditionFalse`. -/
def needsForcedCleanup (getRes : Except Err Deployment) : Except Err Bool :=
  match getRes with
  | Except.error e =>
    if isNotFoundErr e then Except.ok true else Except.error e
  | Except.ok deploy =>
    if hasDeploymentCondition deploy.status.conditions
        DeploymentConditionType.Available ConditionStatus.ConditionFalse then
      Except.ok true
    else Except.ok false

/-- `(*Bootstrapper).needsBootstrap` (bootstrap package): NotFound yields
`(true, nil)`; any other `Get` error is returned; otherwise the probe
returns `false` exactly when some condition is
`DeploymentAvailable`/`ConditionTrue`. -/
def needsBootstrap (getRes : Except Err Deployment) : Except Err Bool :=
  match getRes with
  | Except.error e =>
    if isNotFoundErr e then Except.ok true else Except.error e
  | Except.ok deploy =>
    if hasDeploymentCondition deploy.status.conditions
        DeploymentConditionType.Available ConditionStatus.ConditionTrue then
      Except.ok false
    else Except.ok true

/-- If no condition of the list has the probed type, the scan fails for
every probed status. -/
theorem hasDeploymentCondition_eq_false_of_no_type
    (conds : List DeploymentCondition) (t : DeploymentConditionType)
    (s : ConditionStatus) (h : ∀ c ∈ conds, c.condType ≠ t) :
    hasDeploymentCondition conds t s = false := by
  induction conds with
  | nil => rfl
  | cons c rest ih =>
    have hc : c.condType ≠ t := h c (List.mem_cons_self _ _)
    have hcond : ¬ (c.condType = t ∧ c.status = s) := fun hx => hc hx.1
    simp only [hasDeploymentCondition, if_neg hcond]
    exact ih fun x hx => h x (List.mem_cons_of_mem _ hx)

/-- C5: `needsBootstrap` returns true when the Deployment `Get` reports
NotFound, true when the Deployment exists without any
`DeploymentAvailable`/`ConditionTrue` condition, and false once such a
condition is present. -/
theorem c5_needsBootstrap_cases :
    needsBootstrap (Except.error Err.notFound) = Except.ok true ∧
    (∀ d : Deployment,
      hasDeploymentCondition d.status.conditions DeploymentConditionType.Available
        ConditionStatus.ConditionTrue = false →
      needsBootstrap (Except.ok d) = Except.ok true) ∧
    (∀ d : Deployment,
      hasDeploymentCondition d.status.conditions DeploymentConditionType.Available
        ConditionStatus.ConditionTrue = true →
      needsBootstrap (Except.ok d) = Except.ok false) := by
  refine ⟨rfl, fun d hd => ?_, fun d hd => ?_⟩
  · simp [needsBootstrap, hd]
  · simp [needsBootstrap, hd]

/-- C5 witness: the three cases of the C5 theorem at concrete Deployments
(no conditions; an explicit Available=True condition). -/
theorem c5_needsBootstrap_witness :
    needsBootstrap (Except.error Err.notFound) = Except.ok true ∧
    needsBootstrap (Except.ok { status := { conditions := [] } }) = Except.ok true ∧
    needsBootstrap (Except.ok { status := { conditions :=
      [{ condType := DeploymentConditionType.Available,
         status := ConditionStatus.ConditionTrue }] } }) = Except.ok false :=
  ⟨c5_needsBootstrap_cases.1,
   c5_needsBootstrap_cases.2.1 _ (by decide),
   c5_needsBootstrap_cases.2.2 _ (by decide)⟩

/-- C10: on a Deployment that exists but whose condition list carries no
`DeploymentAvailable` entry at all, the two probes disagree:
`needsForcedCleanup` reports no cleanup while `needsBootstrap` reports
that bootstrap is needed. -/
theorem c10_probes_disagree_without_available_condition
    (d : Deployment)
    (h : ∀ c ∈ d.status.conditions, c.condType ≠ DeploymentConditionType.Available) :
    needsForcedCleanup (Except.ok d) = Except.ok false ∧
      needsBootstrap (Except.ok d) = Except.ok true := by
  constructor
  · simp [needsForcedCleanup, hasDeploymentCondition_eq_false_of_no_type _ _ _ h]
  · simp [needsBootstrap, hasDeploymentCondition_eq_false_of_no_type _ _ _ h]

/-- C10 witness: the disagreement at the concrete Deployment with an empty
condition list. -/
theorem c10_probes_disagree_witness :
    needsForcedCleanup (Except.ok { status := { conditions := [] } }) = Except.ok false ∧
      needsBootstrap (Except.ok { status := { conditions := [] } }) = Except.ok true :=
  c10_probes_disagree_without_available_condition
    { status := { conditions := [] } } (by decide)

/-! ## Forced cleanup cascade (`forcedCleanup`, `nukeIfNeeded`)

The cascade acts on the cluster store, modelled as the slot holding the
well-known `package-operator` ClusterPackage plus the two lists of owned
objects matching the instance/package labels.  Store semantics follow
Kubernetes: a delete of an object without finalizers removes it; a
delete of an object with finalizers only marks it as being deleted; an
update that leaves a deleting object with no finalizers completes its
removal; a delete or update of an absent object fails with NotFound. -/

/-- The store-relevant metadata of a ClusterPackage, ClusterObjectDeployment
or ClusterObjectSet handled by the cascade. -/
structure ObjRecord where
  name : String
  finalizers : List String
  deletionRequested : Bool
deriving DecidableEq

/-- The slice of cluster state the cascade touches. -/
structure ClusterState where
  clusterPackage : Option ObjRecord
  clusterObjectDeployments : List ObjRecord
  clusterObjectSets : List ObjRecord
deriving DecidableEq

/-- `client.Delete` on the single ClusterPackage slot. -/
def storeDelete (slot : Option ObjRecord) : Except Err (Option ObjRecord) :=
  match slot with
  | none => Except.error Err.notFound
  | some o =>
    if o.finalizers = [] then Except.ok none
    else Except.ok (some { o with deletionRequested := true })

/-- `client.Update` on the single ClusterPackage slot: the stored deletion
mark is kept, the finalizer list is replaced by the payload's, and a
deleting object left without finalizers is removed. -/
def storeUpdate (slot : Option ObjRecord) (o' : ObjRecord) :
    Except Err (Option ObjRecord) :=
  match slot with
  | none => Except.error Err.notFound
  | some cur =>
    if cur.deletionRequested ∧ o'.finalizers = [] then Except.ok none
    else Except.ok (some { o' with deletionRequested := cur.deletionRequested })

/-- `client.Get` by name over a keyed list of owned objects. -/
def getObj (l : List ObjRecord) (n : String) : Option ObjRecord :=
  l.find? (fun o => o.name = n)

/-- Remove the named object from a keyed list. -/
def removeObj (l : List ObjRecord) (n : String) : List ObjRecord :=
  l.filter (fun o => decide (o.name ≠ n))

/-- Replace the named object in a keyed list. -/
def setObj (l : List ObjRecord) (n : String) (o : ObjRecord) : List ObjRecord :=
  l.map (fun x => if x.name = n then o else x)

/-- `client.Delete` by name over a keyed list of owned objects. -/
def listDelete (l : List ObjRecord) (n : String) : Except Err (List ObjRecord) :=
  match getObj l n with
  | none => Except.error Err.notFound
  | some o =>
    if o.finalizers = [] then Except.ok (removeObj l n)
    else Except.ok (setObj l n { o with deletionRequested := true })

/-- `client.Update` over a keyed list of owned objects. -/
def listUpdate (l : List ObjRecord) (o' : ObjRecord) : Except Err (List ObjRecord) :=
  match getObj l o'.name with
  | none => Except.error Err.notFound
  | some cur =>
    if cur.deletionRequested ∧ o'.finalizers = [] then Except.ok (removeObj l o'.name)
    else Except.ok (setObj l o'.name { o' with deletionRequested := cur.deletionRequested })

/-- The per-kind loop of `forcedCleanup`: over the listed snapshot, delete
each object, strip its finalizers via an update when the listed copy has
any, then re-`Get` and fail when it is still present (Go wraps the `Get`
result — nil on success — into the "ensuring ... is gone" error).  The
`updates` counter records how many finalizer-stripping updates were
issued.  `kind` only feeds the wrapped error messages. -/
def cleanupObjLoop (kind : String) :
    List ObjRecord → List ObjRecord → Nat → Except Err (List ObjRecord × Nat)
  | [], store, updates => Except.ok (store, updates)
  | o :: rest, store, updates =>
    match listDelete store o.name with
    | Except.error e =>
      Except.error (Err.wrapped ("deleting stuck PackageOperator " ++ kind) e)
    | Except.ok store₁ =>
      let afterStrip : Except Err (List ObjRecord × Nat) :=
        if o.finalizers = [] then Except.ok (store₁, updates)
        else
          match listUpdate store₁ { o with finalizers := [] } with
          | Except.error e =>
            Except.error
              (Err.wrapped ("releasing finalizers on stuck PackageOperator " ++ kind) e)
          | Except.ok store₂ => Except.ok (store₂, updates + 1)
      match afterStrip with
      | Except.error e => Except.error e
      | Except.ok (store₂, updates') =>
        match getObj store₂ o.name with
        | some _ => Except.error (Err.wrappedNil ("ensuring " ++ kind ++ " is gone"))
        | none => cleanupObjLoop kind rest store₂ updates'

/-- `(*bootstrapper).forcedCleanup` (bootstrap.go): delete the in-memory
ClusterPackage handed over by the caller, strip its finalizers when the
in-memory copy carries any, verify it is gone, then run the same
delete/strip/verify loop over the listed owned ClusterObjectDeployments
and over the listed owned ClusterObjectSets (both `client.List` calls
are modelled as returning the respective state component).  The result
is the final cluster state together with the number of
finalizer-stripping updates issued. -/
def forcedCleanup (pkg : ObjRecord) (st : ClusterState) :
    Except Err (ClusterState × Nat) :=
  match storeDelete st.clusterPackage with
  | Except.error e =>
    Except.error (Err.wrapped "deleting stuck PackageOperator ClusterPackage" e)
  | Except.ok slot₁ =>
    let afterStrip : Except Err (Option ObjRecord × Nat) :=
      if pkg.finalizers = [] then Except.ok (slot₁, 0)
      else
        match storeUpdate slot₁ { pkg with finalizers := [] } with
        | Except.error e =>
          Except.error
            (Err.wrapped "releasing finalizers on stuck PackageOperator ClusterPackage" e)
        | Except.ok slot₂ => Except.ok (slot₂, 1)
    match afterStrip with
    | Except.error e => Except.error e
    | Except.ok (slot₂, u₁) =>
      match slot₂ with
      | some _ => Except.error (Err.wrappedNil "ensuring ClusterPackage is gone")
      | none =>
        match cleanupObjLoop "ClusterObjectDeployment"
            st.clusterObjectDeployments st.clusterObjectDeployments u₁ with
        | Except.error e => Except.error e
        | Except.ok (cods, u₂) =>
          match cleanupObjLoop "ClusterObjectSet"
              st.clusterObjectSets st.clusterObjectSets u₂ with
          | Except.error e => Except.error e
          | Except.ok (coss, u₃) =>
            Except.ok
              ({ clusterPackage := none, clusterObjectDeployments := cods,
                 clusterObjectSets := coss }, u₃)

/-- `(*bootstrapper).nukeIfNeeded` (bootstrap.go): probe with
`needsForcedCleanup` and run `forcedCleanup` only when it answers true,
wrapping either failure with its context message. -/
def nukeIfNeeded (getRes : Except Err Deployment) (pkg : ObjRecord)
    (st : ClusterState) : Except Err ClusterState :=
  match needsForcedCleanup getRes with
  | Except.error e => Except.error (Err.wrapped "check for forced cleanup" e)
  | Except.ok false => Except.ok st
  | Except.ok true =>
    match forcedCleanup pkg st with
    | Except.error e => Except.error (Err.wrapped "force cleanup" e)
    | Except.ok (st', _) => Except.ok st'

/-- A ClusterPackage record without finalizers, used by witnesses. -/
def pkgClean : ObjRecord :=
  { name := "package-operator", finalizers := [], deletionRequested := false }

/-- A cluster state holding only the clean ClusterPackage. -/
def stClean : ClusterState :=
  { clusterPackage := some pkgClean, clusterObjectDeployments := [],
    clusterObjectSets := [] }

/-- The empty cluster state: no ClusterPackage, no owned objects. -/
def stEmpty : ClusterState :=
  { clusterPackage := none, clusterObjectDeployments := [],
    clusterObjectSets := [] }

/-- A Deployment carrying an explicit Available=True condition. -/
def deployAvailTrue : Deployment :=
  { status := { conditions :=
      [{ condType := DeploymentConditionType.Available,
         status := ConditionStatus.ConditionTrue }] } }

/-- C3 counterexample: when the backing Deployment is absent (the `Get`
fails with NotFound), `needsForcedCleanup` answers `(true, nil)` — it
reports that cleanup IS needed, contradicting the claim that absence
means no cleanup and that only "present with Available=False" triggers
the cascade. -/
theorem c3_notFound_triggers_cleanup_counterexample :
    needsForcedCleanup (Except.error Err.notFound) = Except.ok true := rfl

/-- C3 amended: the forced-cleanup cascade is triggered when the backing
Deployment is absent (NotFound) or when it is present with an explicit
`DeploymentAvailable=False` condition; when the Deployment is present
without such a condition, `needsForcedCleanup` reports no cleanup and
`nukeIfNeeded` leaves the cluster state untouched; on NotFound,
`nukeIfNeeded` runs the cascade. -/
theorem c3_cleanup_trigger_amended :
    needsForcedCleanup (Except.error Err.notFound) = Except.ok true ∧
    (∀ d : Deployment,
      needsForcedCleanup (Except.ok d) =
        Except.ok (hasDeploymentCondition d.status.conditions
          DeploymentConditionType.Available ConditionStatus.ConditionFalse)) ∧
    (∀ (d : Deployment) (pkg : ObjRecord) (st : ClusterState),
      hasDeploymentCondition d.status.conditions DeploymentConditionType.Available
        ConditionStatus.ConditionFalse = false →
      nukeIfNeeded (Except.ok d) pkg st = Except.ok st) ∧
    (∀ (pkg : ObjRecord) (st st' : ClusterState) (u : Nat),
      forcedCleanup pkg st = Except.ok (st', u) →
      nukeIfNeeded (Except.error Err.notFound) pkg st = Except.ok st') := by
  refine ⟨rfl, fun d => ?_, fun d pkg st hd => ?_, fun pkg st st' u hrun => ?_⟩
  · cases h : hasDeploymentCondition d.status.conditions
        DeploymentConditionType.Available ConditionStatus.ConditionFalse
    · simp [needsForcedCleanup, h]
    · simp [needsForcedCleanup, h]
  · simp [nukeIfNeeded, needsForcedCleanup, hd]
  · simp [nukeIfNeeded, needsForcedCleanup, isNotFoundErr, hrun]

/-- C3 witness: the conditional parts of the amended theorem discharged at
a healthy Deployment (no cleanup, state untouched) and at an absent one
(the cascade runs and empties the state). -/
theorem c3_cleanup_trigger_witness :
    nukeIfNeeded (Except.ok deployAvailTrue) pkgClean stClean = Except.ok stClean ∧
    nukeIfNeeded (Except.error Err.notFound) pkgClean stClean = Except.ok stEmpty :=
  ⟨c3_cleanup_trigger_amended.2.2.1 deployAvailTrue pkgClean stClean (by decide),
   c3_cleanup_trigger_amended.2.2.2 pkgClean stClean stEmpty 0 rfl⟩

/-! ### Idempotence of the cascade (claim C7) -/

/-- A stuck ClusterPackage still carrying one finalizer. -/
def pkgStuck : ObjRecord :=
  { name := "package-operator", finalizers := ["package-operator.run/teardown"],
    deletionRequested := false }

/-- C7 counterexample: running the cascade on a state whose owned object
lists are already empty succeeds once (deleting the stuck
ClusterPackage, stripping its finalizer), but running it again on the
resulting state is NOT a no-op: the `client.Delete` of the now absent
ClusterPackage returns NotFound, which aborts the cascade with an error
— deleting an already-deleted object is not absorbed. -/
theorem c7_rerun_not_noop_counterexample :
    forcedCleanup pkgStuck
        { clusterPackage := some pkgStuck, clusterObjectDeployments := [],
          clusterObjectSets := [] } =
      Except.ok (stEmpty, 1) ∧
    forcedCleanup pkgStuck stEmpty =
      Except.error
        (Err.wrapped "deleting stuck PackageOperator ClusterPackage" Err.notFound) :=
  ⟨rfl, rfl⟩

/-- C7 amended: a single invocation of the cascade over already-empty
owned ClusterObjectDeployment and ClusterObjectSet sets, with the stuck
ClusterPackage still present, completes without error, leaves both owned
sets empty and removes the package; stripping already-empty finalizers
is a no-op in that no finalizer-stripping update is issued when the
package carries none.  Re-invocation after the package is gone, however,
fails with NotFound from the initial delete (see the counterexample), so
the cascade as a whole is not idempotent. -/
theorem c7_cleanup_empty_sets (pkg : ObjRecord) (st : ClusterState)
    (hpkg : st.clusterPackage = some pkg)
    (hcod : st.clusterObjectDeployments = [])
    (hcos : st.clusterObjectSets = []) :
    ∃ u : Nat,
      forcedCleanup pkg st = Except.ok (stEmpty, u) ∧
      (pkg.finalizers = [] → u = 0) := by
  by_cases hf : pkg.finalizers = []
  · refine ⟨0, ?_, fun _ => rfl⟩
    simp [forcedCleanup, storeDelete, stEmpty, hpkg, hcod, hcos, hf, cleanupObjLoop]
  · refine ⟨1, ?_, fun hff => absurd hff hf⟩
    simp [forcedCleanup, storeDelete, storeUpdate, stEmpty, hpkg, hcod, hcos, hf,
      cleanupObjLoop]

/-- C7 witness: the amended theorem applied at the finalizer-free concrete
package sitting alone in the store. -/
theorem c7_cleanup_empty_sets_witness :
    ∃ u : Nat,
      forcedCleanup pkgClean stClean = Except.ok (stEmpty, u) ∧
      (pkgClean.finalizers = [] → u = 0) :=
  c7_cleanup_empty_sets pkgClean stClean rfl rfl rfl

/-! ## Generic package controller (`GenericPackageController.Reconcile`)

The reconcile entry point is modelled as a function of the fetched
object plus oracles for every external outcome: the `Get` error, the
result/error pair produced by each sub-reconciler of the ordered chain,
the deletion-path `client.Update` outcome and the
`client.Status().Update` outcome.  The output records the returned
`(ctrl.Result, error)` pair together with which steps actually ran. -/

/-- The metadata of a Package/ClusterPackage object read by the
controller: deletion timestamp (`none` models the zero timestamp) and
the finalizer list. -/
structure PackageObj where
  name : String
  deletionTimestamp : Option Int
  finalizers : List String
deriving DecidableEq

/-- `ctrl.Result`. -/
structure CtrlResult where
  requeue : Bool
  requeueAfter : Int
deriving DecidableEq

/-- `ctrl.Result.IsZero`: comparison with the zero value. -/
def CtrlResult.isZero (r : CtrlResult) : Bool :=
  decide (r = { requeue := false, requeueAfter := 0 })

/-- Outcome of the sub-reconciler loop: the `(res, err)` pair left in the
loop variables and the number of sub-reconcilers that were invoked. -/
structure ChainOutcome where
  res : CtrlResult
  err : Option Err
  executed : Nat
deriving DecidableEq

/-- The `for _, r := range c.reconciler` loop: each sub-reconciler's
outcome is an oracle `(res, err)` pair; the loop stops at the first one
returning a non-nil error or a non-zero result. -/
def runChain : List (CtrlResult × Option Err) → ChainOutcome
  | [] => { res := { requeue := false, requeueAfter := 0 }, err := none, executed := 0 }
  | (r, e) :: rest =>
    if e ≠ none ∨ r.isZero = false then { res := r, err := e, executed := 1 }
    else
      let o := runChain rest
      { res := o.res, err := o.err, executed := o.executed + 1 }

/-- The error, if any, carried by the sub-reconciler at which the chain
stops (the first one with a non-nil error or non-zero result). -/
def chainStopErr : List (CtrlResult × Option Err) → Option Err
  | [] => none
  | (r, e) :: rest =>
    if e ≠ none ∨ r.isZero = false then e else chainStopErr rest

/-- `client.IgnoreNotFound`. -/
def ignoreNotFound : Option Err → Option Err
  | some e => if isNotFoundErr e then none else some e
  | none => none

/-- The legacy finalizer removed on deletion
(`package-operator.run/loader-job`). -/
def loaderJobFinalizer : String := "package-operator.run/loader-job"

/-- Modelled from the spec: `controllers.RemoveFinalizer` lives in
`internal/controllers`, outside the provided sources; per the spec the
deletion path "removes a legacy finalizer token if present" from the
object's finalizer list. -/
def removeFinalizer (pkg : PackageObj) (f : String) : PackageObj :=
  { pkg with finalizers := pkg.finalizers.filter (fun x => decide (x ≠ f)) }

/-- `GenericPackageController.handleDeletion`: strip the loader-job
finalizer and persist via `client.Update` (outcome injected). -/
def handleDeletion (pkg : PackageObj) (updateErr : Option Err) :
    Option Err × PackageObj :=
  (updateErr, removeFinalizer pkg loaderJobFinalizer)

/-- Inputs of one `Reconcile` invocation: the `Get` outcome, the object it
would return, and the oracles for the chain, the deletion-path update
and the status update. -/
structure ReconcileInput where
  getErr : Option Err
  pkg : PackageObj
  chain : List (CtrlResult × Option Err)
  updateErr : Option Err
  statusUpdateErr : Option Err
deriving DecidableEq

/-- What one `Reconcile` invocation returned and which steps ran. -/
structure ReconcileOutput where
  res : CtrlResult
  err : Option Err
  reconcilersRun : Nat
  ranUpdateStatus : Bool
  ranHandleDeletion : Bool
  deletionUpdate : Option PackageObj
deriving DecidableEq

/-- `GenericPackageController.Reconcile` (package_controller.go): fetch the
object, absorb NotFound; on a non-zero deletion timestamp run only the
deletion path; otherwise run the ordered sub-reconciler chain,
return a chain error as-is, and otherwise run `updateStatus`, whose
store failure is wrapped as "updating Package status". -/
def Reconcile (inp : ReconcileInput) : ReconcileOutput :=
  match inp.getErr with
  | some e =>
    { res := { requeue := false, requeueAfter := 0 }, err := ignoreNotFound (some e),
      reconcilersRun := 0, ranUpdateStatus := false, ranHandleDeletion := false,
      deletionUpdate := none }
  | none =>
    if inp.pkg.deletionTimestamp ≠ none then
      let del := handleDeletion inp.pkg inp.updateErr
      { res := { requeue := false, requeueAfter := 0 }, err := del.1,
        reconcilersRun := 0, ranUpdateStatus := false, ranHandleDeletion := true,
        deletionUpdate := some del.2 }
    else
      let o := runChain inp.chain
      match o.err with
      | some e =>
        { res := o.res, err := some e, reconcilersRun := o.executed,
          ranUpdateStatus := false, ranHandleDeletion := false, deletionUpdate := none }
      | none =>
        { res := o.res,
          err := Option.map (fun e => Err.wrapped "updating Package status" e)
            inp.statusUpdateErr,
          reconcilersRun := o.executed, ranUpdateStatus := true,
          ranHandleDeletion := false, deletionUpdate := none }

/-- The err component of the loop outcome is the stop error. -/
theorem runChain_err_eq (l : List (CtrlResult × Option Err)) :
    (runChain l).err = chainStopErr l := by
  induction l with
  | nil => rfl
  | cons p rest ih =>
    obtain ⟨r, e⟩ := p
    by_cases h : e ≠ none ∨ r.isZero = false
    · simp only [runChain, chainStopErr, if_pos h]
    · simp only [runChain, chainStopErr, if_neg h]
      exact ih

/-- The zero `ctrl.Result`. -/
def emptyResult : CtrlResult := { requeue := false, requeueAfter := 0 }

/-- The output of a reconcile that did nothing and succeeded. -/
def noopOutput : ReconcileOutput :=
  { res := emptyResult, err := none, reconcilersRun := 0,
    ranUpdateStatus := false, ranHandleDeletion := false, deletionUpdate := none }

/-- A live package: no deletion timestamp. -/
def livePkg : PackageObj :=
  { name := "my-package", deletionTimestamp := none, finalizers := [] }

/-- A reconcile whose first of two sub-reconcilers stops the chain with a
non-empty result and a nil error. -/
def c4inp : ReconcileInput :=
  { getErr := none, pkg := livePkg,
    chain := [({ requeue := true, requeueAfter := 0 }, none),
      ({ requeue := false, requeueAfter := 0 }, none)],
    updateErr := none, statusUpdateErr := none }

/-- C4 counterexample: the first of the two sub-reconcilers stops the
chain (only one of them is invoked) by returning a non-empty result with
a nil error, yet `updateStatus` still runs — `err != nil` is the only
condition under which `Reconcile` skips the status projection, so a
non-empty result does not prevent it, contradicting the claim. -/
theorem c4_updateStatus_after_stop_counterexample :
    (Reconcile c4inp).ranUpdateStatus = true ∧
      (Reconcile c4inp).reconcilersRun = 1 ∧ c4inp.chain.length = 2 :=
  ⟨rfl, rfl, rfl⟩

/-- C4 amended: for a fetched, live Package, the final status projection
runs exactly when the sub-reconciler at which the chain stops (if any)
carries no error; a sub-reconciler stopping the chain with a non-empty
result and nil error does not prevent `updateStatus` from running. -/
theorem c4_updateStatus_runs_iff_no_chain_error (inp : ReconcileInput)
    (hget : inp.getErr = none) (hdel : inp.pkg.deletionTimestamp = none) :
    (Reconcile inp).ranUpdateStatus = (chainStopErr inp.chain).isNone := by
  have hrw := runChain_err_eq inp.chain
  simp only [Reconcile, hget]
  rw [if_neg (by simp [hdel]), ← hrw]
  cases h : (runChain inp.chain).err with
  | some e => simp [h]
  | none => simp [h]

/-- C4 witness: the amended theorem at the concrete stopped chain. -/
theorem c4_updateStatus_runs_iff_no_chain_error_witness :
    (Reconcile c4inp).ranUpdateStatus = (chainStopErr c4inp.chain).isNone :=
  c4_updateStatus_runs_iff_no_chain_error c4inp rfl rfl

/-- C6: a fetched Package with a non-zero deletion timestamp never reaches
the forward chain (no sub-reconciler is invoked) and never reaches the
status projection; only the deletion path runs, persisting the object
with the legacy loader-job finalizer stripped, and its update error, if
any, is what the reconcile returns. -/
theorem c6_deletion_skips_chain_and_status (inp : ReconcileInput)
    (hget : inp.getErr = none) (hdel : inp.pkg.deletionTimestamp ≠ none) :
    (Reconcile inp).reconcilersRun = 0 ∧
    (Reconcile inp).ranUpdateStatus = false ∧
    (Reconcile inp).ranHandleDeletion = true ∧
    (Reconcile inp).deletionUpdate =
      some (removeFinalizer inp.pkg loaderJobFinalizer) ∧
    (Reconcile inp).err = inp.updateErr := by
  refine ⟨?_, ?_, ?_, ?_, ?_⟩ <;>
    simp [Reconcile, hget, if_pos hdel, handleDeletion]

/-- A package in deletion, carrying the legacy finalizer and one other. -/
def doomedPkg : PackageObj :=
  { name := "doomed-package", deletionTimestamp := some 5,
    finalizers := ["package-operator.run/loader-job", "keep-me"] }

/-- A reconcile of the in-deletion package whose chain, were it run, would
error. -/
def c6inp : ReconcileInput :=
  { getErr := none, pkg := doomedPkg,
    chain := [({ requeue := false, requeueAfter := 0 }, some (Err.transport 3))],
    updateErr := none, statusUpdateErr := none }

/-- C6 witness: the deletion short-circuit at a concrete in-deletion
package whose chain, were it run, would error. -/
theorem c6_deletion_skips_chain_and_status_witness :
    (Reconcile c6inp).reconcilersRun = 0 ∧
    (Reconcile c6inp).ranUpdateStatus = false ∧
    (Reconcile c6inp).ranHandleDeletion = true ∧
    (Reconcile c6inp).deletionUpdate =
      some (removeFinalizer c6inp.pkg loaderJobFinalizer) ∧
    (Reconcile c6inp).err = c6inp.updateErr :=
  c6_deletion_skips_chain_and_status c6inp rfl (by decide)

/-- A reconcile whose chain is clean but whose status update fails. -/
def c9inp : ReconcileInput :=
  { getErr := none, pkg := livePkg, chain := [],
    updateErr := none, statusUpdateErr := some (Err.transport 7) }

/-- C9 counterexample: a store error from the final status update is
returned wrapped with the "updating Package status" context message, not
unmodified, contradicting the claim that every non-NotFound store error
reaches the caller unmodified. -/
theorem c9_status_error_wrapped_counterexample :
    (Reconcile c9inp).err =
      some (Err.wrapped "updating Package status" (Err.transport 7)) ∧
    (Reconcile c9inp).err ≠ some (Err.transport 7) :=
  ⟨rfl, by decide⟩

/-- C9 amended: `Reconcile` absorbs a NotFound from the `Get` as a no-op
success; it returns any other `Get` error and any sub-reconciler error
unmodified; a failing final status update, however, is returned wrapped
with the "updating Package status" context. -/
theorem c9_error_policy :
    (∀ inp : ReconcileInput, inp.getErr = some Err.notFound →
      Reconcile inp = noopOutput) ∧
    (∀ (inp : ReconcileInput) (e : Err), inp.getErr = some e →
      isNotFoundErr e = false → (Reconcile inp).err = some e) ∧
    (∀ (inp : ReconcileInput) (e : Err), inp.getErr = none →
      inp.pkg.deletionTimestamp = none → chainStopErr inp.chain = some e →
      (Reconcile inp).err = some e) ∧
    (∀ (inp : ReconcileInput) (e : Err), inp.getErr = none →
      inp.pkg.deletionTimestamp = none → chainStopErr inp.chain = none →
      inp.statusUpdateErr = some e →
      (Reconcile inp).err = some (Err.wrapped "updating Package status" e)) := by
  refine ⟨fun inp hget => ?_, fun inp e hget he => ?_,
    fun inp e hget hdel hchain => ?_, fun inp e hget hdel hchain hstat => ?_⟩
  · simp [Reconcile, hget, ignoreNotFound, isNotFoundErr, noopOutput, emptyResult]
  · simp [Reconcile, hget, ignoreNotFound, he]
  · rw [← runChain_err_eq] at hchain
    simp only [Reconcile, hget]
    rw [if_neg (by simp [hdel])]
    simp [hchain]
  · rw [← runChain_err_eq] at hchain
    simp only [Reconcile, hget]
    rw [if_neg (by simp [hdel])]
    simp [hchain, hstat]

/-- A reconcile whose `Get` fails with NotFound. -/
def c9notFoundInp : ReconcileInput :=
  { getErr := some Err.notFound, pkg := livePkg, chain := [],
    updateErr := none, statusUpdateErr := none }

/-- A reconcile whose `Get` fails with a transport error. -/
def c9getErrInp : ReconcileInput :=
  { getErr := some (Err.transport 2), pkg := livePkg, chain := [],
    updateErr := none, statusUpdateErr := none }

/-- A reconcile whose single sub-reconciler errors. -/
def c9chainErrInp : ReconcileInput :=
  { getErr := none, pkg := livePkg,
    chain := [({ requeue := false, requeueAfter := 0 }, some (Err.transport 9))],
    updateErr := none, statusUpdateErr := none }

/-- C9 witness: all four branches of the amended error policy at concrete
inputs. -/
theorem c9_error_policy_witness :
    Reconcile c9notFoundInp = noopOutput ∧
    (Reconcile c9getErrInp).err = some (Err.transport 2) ∧
    (Reconcile c9chainErrInp).err = some (Err.transport 9) ∧
    (Reconcile c9inp).err =
      some (Err.wrapped "updating Package status" (Err.transport 7)) :=
  ⟨c9_error_policy.1 c9notFoundInp rfl,
   c9_error_policy.2.1 c9getErrInp (Err.transport 2) rfl rfl,
   c9_error_policy.2.2.1 c9chainErrInp (Err.transport 9) rfl rfl (by decide),
   c9_error_policy.2.2.2 c9inp (Err.transport 7) rfl rfl rfl rfl⟩

/-! ## Self-install creation (`createPKOPackage`, `ensureCRDs`)

Both creation helpers call `client.Create` and ask `errors.IsAlreadyExists`
about a failure; the `Create` outcomes are oracle arguments. -/

/-- `errors.IsAlreadyExists` on a raw client error. -/
def isAlreadyExistsErr (e : Err) : Bool :=
  match e with
  | Err.alreadyExists => true
  | _ => false

/-- The spec fields of the self-managed ClusterPackage set during
creation: own image and environment-sourced configuration. -/
structure PackageSpecModel where
  image : String
  config : Option String
deriving DecidableEq

/-- The self-managed ClusterPackage object built by `createPKOPackage`. -/
structure ClusterPackageObj where
  name : String
  spec : PackageSpecModel
deriving DecidableEq

/-- The ClusterPackage literal built inside `createPKOPackage`: well-known
name, the bootstrapper's image, the `PKO_CONFIG`-sourced config. -/
def pkoPackageObj (selfBootstrapImage : String) (config : Option String) :
    ClusterPackageObj :=
  { name := "package-operator",
    spec := { image := selfBootstrapImage, config := config } }

/-- `(*bootstrapper).createPKOPackage` (bootstrap.go): build the
self-managed ClusterPackage and `Create` it; an AlreadyExists failure is
absorbed, any other failure is wrapped and returned. -/
def createPKOPackage (selfBootstrapImage : String) (config : Option String)
    (createErr : Option Err) : Except Err ClusterPackageObj :=
  match createErr with
  | none => Except.ok (pkoPackageObj selfBootstrapImage config)
  | some e =>
    if isAlreadyExistsErr e then Except.ok (pkoPackageObj selfBootstrapImage config)
    else Except.error (Err.wrapped "creating Package Operator ClusterPackage" e)

/-- A bundled CRD as handled by `ensureCRDs`: name plus label map
(modelled as a keyed pair list). -/
structure UnstructuredObj where
  name : String
  labels : List (String × String)
deriving DecidableEq

/-- `controllers.DynamicCacheLabel` is defined outside the provided
sources; its exact value is immaterial to the claims — it is the label
key set to "True" on every ensured CRD. -/
def DynamicCacheLabel : String := "package-operator.run/cache"

/-- Map-style label write: `labels[k] = v` after a nil-map init. -/
def setLabel (o : UnstructuredObj) (k v : String) : UnstructuredObj :=
  { o with labels := o.labels.filter (fun q => decide (q.1 ≠ k)) ++ [(k, v)] }

/-- `(*bootstrapper).ensureCRDs` (bootstrap.go): for each bundled CRD set
the cache label and `Create` it; an AlreadyExists failure is absorbed,
any other failure is returned as-is, aborting the loop.  The result
collects the labelled CRDs (the Go code mutates the caller's slice). -/
def ensureCRDs : List (UnstructuredObj × Option Err) →
    Except Err (List UnstructuredObj)
  | [] => Except.ok []
  | (crd, createErr) :: rest =>
    let crd' := setLabel crd DynamicCacheLabel "True"
    let absorbed : Option Err :=
      match createErr with
      | some e => if isAlreadyExistsErr e then none else some e
      | none => none
    match absorbed with
    | some e => Except.error e
    | none =>
      match ensureCRDs rest with
      | Except.error e' => Except.error e'
      | Except.ok out => Except.ok (crd' :: out)

/-- A `Create` outcome that converges: success or AlreadyExists. -/
def benignCreate (r : Option Err) : Prop :=
  r = none ∨ r = some Err.alreadyExists

instance (r : Option Err) : Decidable (benignCreate r) := by
  unfold benignCreate; infer_instance

/-- A loop over benign `Create` outcomes completes. -/
theorem ensureCRDs_ok (l : List (UnstructuredObj × Option Err))
    (h : ∀ x ∈ l, benignCreate x.2) :
    ∃ out, ensureCRDs l = Except.ok out := by
  induction l with
  | nil => exact ⟨[], rfl⟩
  | cons p rest ih =>
    obtain ⟨crd, createErr⟩ := p
    obtain ⟨out, hout⟩ := ih fun x hx => h x (List.mem_cons_of_mem _ hx)
    rcases h (crd, createErr) (List.mem_cons_self _ _) with hb | hb <;>
      simp only at hb <;>
      exact ⟨setLabel crd DynamicCacheLabel "True" :: out,
        by simp [ensureCRDs, isAlreadyExistsErr, hb, hout]⟩

/-- The first non-benign `Create` outcome aborts the loop with that very
error, unmodified. -/
theorem ensureCRDs_first_error (l₁ : List (UnstructuredObj × Option Err))
    (crd : UnstructuredObj) (e : Err) (l₂ : List (UnstructuredObj × Option Err))
    (he : isAlreadyExistsErr e = false) (h₁ : ∀ x ∈ l₁, benignCreate x.2) :
    ensureCRDs (l₁ ++ (crd, some e) :: l₂) = Except.error e := by
  induction l₁ with
  | nil => simp [ensureCRDs, he]
  | cons p rest ih =>
    obtain ⟨c, r⟩ := p
    have htail := ih fun x hx => h₁ x (List.mem_cons_of_mem _ hx)
    rcases h₁ (c, r) (List.mem_cons_self _ _) with hb | hb <;>
      simp only at hb <;>
      simp [ensureCRDs, isAlreadyExistsErr, hb, htail]

/-- C8: during self-install, the creation of the self-managed
ClusterPackage and of each bundled CRD succeeds when the object already
exists — an AlreadyExists error from `Create` is absorbed — while any
other creation error is propagated to the caller (wrapped with context
for the package, verbatim for the CRDs). -/
theorem c8_create_tolerates_alreadyExists :
    (∀ (img : String) (cfg : Option String),
      createPKOPackage img cfg none = Except.ok (pkoPackageObj img cfg)) ∧
    (∀ (img : String) (cfg : Option String),
      createPKOPackage img cfg (some Err.alreadyExists) =
        Except.ok (pkoPackageObj img cfg)) ∧
    (∀ (img : String) (cfg : Option String) (e : Err),
      isAlreadyExistsErr e = false →
      createPKOPackage img cfg (some e) =
        Except.error (Err.wrapped "creating Package Operator ClusterPackage" e)) ∧
    (∀ l : List (UnstructuredObj × Option Err), (∀ x ∈ l, benignCreate x.2) →
      ∃ out, ensureCRDs l = Except.ok out) ∧
    (∀ (l₁ : List (UnstructuredObj × Option Err)) (crd : UnstructuredObj)
      (e : Err) (l₂ : List (UnstructuredObj × Option Err)),
      isAlreadyExistsErr e = false → (∀ x ∈ l₁, benignCreate x.2) →
      ensureCRDs (l₁ ++ (crd, some e) :: l₂) = Except.error e) := by
  refine ⟨fun img cfg => rfl, fun img cfg => rfl, fun img cfg e he => ?_,
    ensureCRDs_ok, ensureCRDs_first_error⟩
  simp [createPKOPackage, he]

/-- A sample bundled CRD. -/
def crdPhases : UnstructuredObj :=
  { name := "clusterobjectsets.package-operator.run", labels := [] }

/-- Another sample bundled CRD. -/
def crdPackages : UnstructuredObj :=
  { name := "clusterpackages.package-operator.run", labels := [] }

/-- C8 witness: every branch of the C8 theorem at concrete images, configs
and CRD lists. -/
theorem c8_create_tolerates_alreadyExists_witness :
    createPKOPackage "registry.example/pko:v1" none none =
      Except.ok (pkoPackageObj "registry.example/pko:v1" none) ∧
    createPKOPackage "registry.example/pko:v1" none (some Err.alreadyExists) =
      Except.ok (pkoPackageObj "registry.example/pko:v1" none) ∧
    createPKOPackage "registry.example/pko:v1" none (some (Err.transport 4)) =
      Except.error
        (Err.wrapped "creating Package Operator ClusterPackage" (Err.transport 4)) ∧
    (∃ out, ensureCRDs [(crdPhases, none), (crdPackages, some Err.alreadyExists)] =
      Except.ok out) ∧
    ensureCRDs [(crdPhases, none), (crdPackages, some (Err.transport 4))] =
      Except.error (Err.transport 4) :=
  ⟨c8_create_tolerates_alreadyExists.1 "registry.example/pko:v1" none,
   c8_create_tolerates_alreadyExists.2.1 "registry.example/pko:v1" none,
   c8_create_tolerates_alreadyExists.2.2.1 "registry.example/pko:v1" none
     (Err.transport 4) rfl,
   c8_create_tolerates_alreadyExists.2.2.2.1
     [(crdPhases, none), (crdPackages, some Err.alreadyExists)] (by decide),
   c8_create_tolerates_alreadyExists.2.2.2.2
     [(crdPhases, none)] crdPackages (Err.transport 4) [] rfl (by decide)⟩

end PackageOperator
